import Mathlib

/-!
Shallow embedding of the indicator/signal pipeline of `stock_app.py`
(`calculate_indicators`, `apply_strategy`, and the module-level plumbing
around them), together with proofs of the specification's claims about it.

Modelling conventions:
* a pandas `Series` of floats over the bar index is a `List ℚ`;
* a value that pandas would hold as `NaN` (warm-up of `rolling`/`diff`,
  or a `0/0` in the RSI quotient) is `none` in a `List (Option ℚ)`;
* comparisons follow IEEE semantics as pandas evaluates them: any
  comparison touching `NaN` is `false`;
* `gain/loss` division follows float semantics: positive value over zero
  is `+∞` (making `100 - 100/(1+rs) = 100`), `0/0` is `NaN` (`none`).
-/

namespace StockApp

/-- One OHLCV bar, a row of the fetched dataframe. -/
structure PriceBar where
  Date : ℤ
  Open : ℚ
  High : ℚ
  Low : ℚ
  Close : ℚ
  Volume : ℚ
deriving DecidableEq

/-- Map with the element's index, starting the count at `n`. -/
def idxMap (f : ℕ → α → β) : ℕ → List α → List β
  | _, [] => []
  | n, x :: xs => f n x :: idxMap f (n + 1) xs

@[simp] theorem length_idxMap (f : ℕ → α → β) (n : ℕ) (xs : List α) :
    (idxMap f n xs).length = xs.length := by
  induction xs generalizing n with
  | nil => rfl
  | cons x xs ih => simp [idxMap, ih]

theorem get?_idxMap (f : ℕ → α → β) (n : ℕ) (xs : List α) (t : ℕ) :
    (idxMap f n xs).get? t = (xs.get? t).map (f (n + t)) := by
  induction xs generalizing n t with
  | nil => simp [idxMap]
  | cons x xs ih =>
    cases t with
    | zero => simp [idxMap]
    | succ t =>
      simp only [idxMap, List.get?_cons_succ, ih (n + 1) t]
      have : n + 1 + t = n + Nat.succ t := by omega
      rw [this]

/-- The `Close` column. -/
def closes (bars : List PriceBar) : List ℚ := bars.map (·.Close)

/-- Tail of the exponentially weighted mean: `prev` is the previous EMA value. -/
def emaAux (a : ℚ) : ℚ → List ℚ → List ℚ
  | _, [] => []
  | prev, x :: xs => (a * x + (1 - a) * prev) :: emaAux a (a * x + (1 - a) * prev) xs

/-- `Series.ewm(span=s, adjust=False).mean()`: seeded at the first element,
then `EMA_t = α·x_t + (1-α)·EMA_{t-1}` with `α = 2/(s+1)`. -/
def ema (span : ℕ) : List ℚ → List ℚ
  | [] => []
  | x :: xs => x :: emaAux (2 / (span + 1)) x xs

@[simp] theorem length_emaAux (a : ℚ) (prev : ℚ) (xs : List ℚ) :
    (emaAux a prev xs).length = xs.length := by
  induction xs generalizing prev with
  | nil => rfl
  | cons x xs ih => simp [emaAux, ih]

@[simp] theorem length_ema (span : ℕ) (xs : List ℚ) :
    (ema span xs).length = xs.length := by
  cases xs with
  | nil => rfl
  | cons x xs => simp [ema]

/-- Tail of `Series.diff()`: `prev` is the previous element. -/
def diffAux : ℚ → List ℚ → List (Option ℚ)
  | _, [] => []
  | prev, x :: xs => some (x - prev) :: diffAux x xs

/-- `Series.diff()`: `NaN` on the first row, `x_t - x_{t-1}` afterwards. -/
def diffO : List ℚ → List (Option ℚ)
  | [] => []
  | x :: xs => none :: diffAux x xs

@[simp] theorem length_diffAux (prev : ℚ) (xs : List ℚ) :
    (diffAux prev xs).length = xs.length := by
  induction xs generalizing prev with
  | nil => rfl
  | cons x xs ih => simp [diffAux, ih]

@[simp] theorem length_diffO (xs : List ℚ) : (diffO xs).length = xs.length := by
  cases xs with
  | nil => rfl
  | cons x xs => simp [diffO]

/-- `delta.where(delta > 0, 0)` elementwise: the first row's `NaN` delta
compares false and is replaced by `0`. -/
def gainOf : Option ℚ → ℚ
  | some d => if 0 < d then d else 0
  | none => 0

/-- `-delta.where(delta < 0, 0)` elementwise; again `NaN` becomes `0`. -/
def lossOf : Option ℚ → ℚ
  | some d => if d < 0 then -d else 0
  | none => 0

def gains (bars : List PriceBar) : List ℚ := (diffO (closes bars)).map gainOf

def losses (bars : List PriceBar) : List ℚ := (diffO (closes bars)).map lossOf

/-- The trailing window of width `w` ending at index `t` (inclusive). -/
def windowAt (w t : ℕ) (xs : List ℚ) : List ℚ := (xs.take (t + 1)).drop (t + 1 - w)

/-- `Series.rolling(window=w).mean()`: `NaN` until `w` values exist. -/
def rollingMean (w : ℕ) (xs : List ℚ) : List (Option ℚ) :=
  idxMap (fun t _ => if t + 1 < w then none else some ((windowAt w t xs).sum / w)) 0 xs

/-- Maximum of a list, `none` when empty. -/
def listMax : List ℚ → Option ℚ
  | [] => none
  | x :: xs => some (xs.foldl max x)

/-- Minimum of a list, `none` when empty. -/
def listMin : List ℚ → Option ℚ
  | [] => none
  | x :: xs => some (xs.foldl min x)

/-- `Series.rolling(window=w).max()`. -/
def rollingMax (w : ℕ) (xs : List ℚ) : List (Option ℚ) :=
  idxMap (fun t _ => if t + 1 < w then none else listMax (windowAt w t xs)) 0 xs

/-- `Series.rolling(window=w).min()`. -/
def rollingMin (w : ℕ) (xs : List ℚ) : List (Option ℚ) :=
  idxMap (fun t _ => if t + 1 < w then none else listMin (windowAt w t xs)) 0 xs

/-- `rs = gain/loss` followed by `100 - 100/(1+rs)` under float semantics:
`g/0 = +∞` for `g > 0` (so the result is `100`), `0/0 = NaN`. -/
def rsCombine : Option ℚ → Option ℚ → Option ℚ
  | some g, some l =>
    if l = 0 then (if g = 0 then none else some 100)
    else some (100 - 100 / (1 + g / l))
  | _, _ => none

def rsiColumn (bars : List PriceBar) : List (Option ℚ) :=
  List.zipWith rsCombine (rollingMean 14 (gains bars)) (rollingMean 14 (losses bars))

/-- `Close.diff().apply(lambda x: green if x >= 0 else red)`: the first
row's `NaN` compares false against `>= 0`, giving red. -/
def colorOf : Option ℚ → String
  | some d => if 0 ≤ d then "#00ff00" else "#ff0000"
  | none => "#ff0000"

def colorColumn (bars : List PriceBar) : List String :=
  (diffO (closes bars)).map colorOf

def emaColumn (span : ℕ) (bars : List PriceBar) : List ℚ := ema span (closes bars)

def macdColumn (bars : List PriceBar) : List ℚ :=
  List.zipWith (fun a b => a - b) (emaColumn 12 bars) (emaColumn 26 bars)

def signalLineColumn (bars : List PriceBar) : List ℚ := ema 9 (macdColumn bars)

def macdHistColumn (bars : List PriceBar) : List ℚ :=
  List.zipWith (fun a b => a - b) (macdColumn bars) (signalLineColumn bars)

def highLevelColumn (bars : List PriceBar) : List (Option ℚ) :=
  rollingMax 15 (bars.map (·.High))

def lowLevelColumn (bars : List PriceBar) : List (Option ℚ) :=
  rollingMin 15 (bars.map (·.Low))

def ema233SlopeColumn (bars : List PriceBar) : List (Option ℚ) :=
  diffO (emaColumn 233 bars)

/-- A `PriceBar` together with the derived columns of `calculate_indicators`.
A derived field is `none` where pandas would hold `NaN` (or past the end). -/
structure IndicatorRow where
  bar : PriceBar
  EMA5 : Option ℚ
  EMA13 : Option ℚ
  EMA55 : Option ℚ
  EMA233 : Option ℚ
  EMA12 : Option ℚ
  EMA26 : Option ℚ
  MACD : Option ℚ
  Signal_Line : Option ℚ
  MACD_Hist : Option ℚ
  RSI : Option ℚ
  HighLevel : Option ℚ
  LowLevel : Option ℚ
  EMA233_Slope : Option ℚ
  Color : Option String
deriving DecidableEq

/-- `calculate_indicators`: annotate every bar with the derived columns. -/
def calculate_indicators (bars : List PriceBar) : List IndicatorRow :=
  idxMap (fun t b =>
    { bar := b
      EMA5 := (emaColumn 5 bars).get? t
      EMA13 := (emaColumn 13 bars).get? t
      EMA55 := (emaColumn 55 bars).get? t
      EMA233 := (emaColumn 233 bars).get? t
      EMA12 := (emaColumn 12 bars).get? t
      EMA26 := (emaColumn 26 bars).get? t
      MACD := (macdColumn bars).get? t
      Signal_Line := (signalLineColumn bars).get? t
      MACD_Hist := (macdHistColumn bars).get? t
      RSI := (rsiColumn bars).getD t none
      HighLevel := (highLevelColumn bars).getD t none
      LowLevel := (lowLevelColumn bars).getD t none
      EMA233_Slope := (ema233SlopeColumn bars).getD t none
      Color := (colorColumn bars).get? t }) 0 bars

/-- `a > b` as pandas evaluates it elementwise: false whenever a side is `NaN`. -/
def obGT : Option ℚ → Option ℚ → Bool
  | some a, some b => decide (b < a)
  | _, _ => false

/-- `a < b` with the same `NaN`-is-false semantics. -/
def obLT (a b : Option ℚ) : Bool := obGT b a

/-- `data["RSI"].shift(1)` read at row `t`: the previous row's RSI. -/
def prevRSI (rows : List IndicatorRow) : ℕ → Option ℚ
  | 0 => none
  | t + 1 =>
    match rows.get? t with
    | some r => r.RSI
    | none => none

/-- The `bullish_conditions` mask of `apply_strategy` at row `t`. -/
def bullishAt (rows : List IndicatorRow) (t : ℕ) : Bool :=
  match rows.get? t with
  | none => false
  | some r =>
    obGT r.EMA5 r.EMA13 && obLT r.MACD (some 0) && obLT r.Signal_Line (some 0) &&
    obGT r.MACD r.Signal_Line && obGT r.EMA233_Slope (some 0) &&
    obGT (some r.bar.Close) r.LowLevel && obGT r.RSI (prevRSI rows t)

/-- The `bearish_conditions` mask of `apply_strategy` at row `t`. -/
def bearishAt (rows : List IndicatorRow) (t : ℕ) : Bool :=
  match rows.get? t with
  | none => false
  | some r =>
    obLT r.EMA5 r.EMA13 && obGT r.MACD (some 0) && obGT r.Signal_Line (some 0) &&
    obLT r.MACD r.Signal_Line && obLT r.EMA233_Slope (some 0) &&
    obLT (some r.bar.Close) r.HighLevel && obLT r.RSI (prevRSI rows t)

/-- `Signal`: initialized to 0, set to 1 on the bullish mask, then to -1 on
the bearish mask (so a bearish assignment would overwrite a bullish one). -/
def signalAt (rows : List IndicatorRow) (t : ℕ) : ℤ :=
  if bearishAt rows t then -1 else if bullishAt rows t then 1 else 0

structure ClassifiedRow where
  row : IndicatorRow
  Signal : ℤ
deriving DecidableEq

/-- `apply_strategy`: annotate every row with its `Signal`. -/
def apply_strategy (rows : List IndicatorRow) : List ClassifiedRow :=
  idxMap (fun t r => ⟨r, signalAt rows t⟩) 0 rows

/-- The module-level composition: indicators, then signals.  The module
performs no validation of the fetched data before this (lines 17-22 only
fetch and coerce the index). -/
def pipeline (bars : List PriceBar) : List ClassifiedRow :=
  apply_strategy (calculate_indicators bars)

/-! Per-row accessors used to state the claims. -/

def closeAt (bars : List PriceBar) (t : ℕ) : Option ℚ := (closes bars).get? t

def ema5At (bars : List PriceBar) (t : ℕ) : Option ℚ := (emaColumn 5 bars).get? t

def ema13At (bars : List PriceBar) (t : ℕ) : Option ℚ := (emaColumn 13 bars).get? t

def ema55At (bars : List PriceBar) (t : ℕ) : Option ℚ := (emaColumn 55 bars).get? t

def ema233At (bars : List PriceBar) (t : ℕ) : Option ℚ := (emaColumn 233 bars).get? t

def ema12At (bars : List PriceBar) (t : ℕ) : Option ℚ := (emaColumn 12 bars).get? t

def ema26At (bars : List PriceBar) (t : ℕ) : Option ℚ := (emaColumn 26 bars).get? t

def macdAt (bars : List PriceBar) (t : ℕ) : Option ℚ := (macdColumn bars).get? t

def signalLineAt (bars : List PriceBar) (t : ℕ) : Option ℚ := (signalLineColumn bars).get? t

def macdHistAt (bars : List PriceBar) (t : ℕ) : Option ℚ := (macdHistColumn bars).get? t

def avgGainAt (bars : List PriceBar) (t : ℕ) : Option ℚ := (rollingMean 14 (gains bars)).getD t none

def avgLossAt (bars : List PriceBar) (t : ℕ) : Option ℚ := (rollingMean 14 (losses bars)).getD t none

def rsiAt (bars : List PriceBar) (t : ℕ) : Option ℚ := (rsiColumn bars).getD t none

def highLevelAt (bars : List PriceBar) (t : ℕ) : Option ℚ := (highLevelColumn bars).getD t none

def lowLevelAt (bars : List PriceBar) (t : ℕ) : Option ℚ := (lowLevelColumn bars).getD t none

def ema233SlopeAt (bars : List PriceBar) (t : ℕ) : Option ℚ := (ema233SlopeColumn bars).getD t none

def colorAt (bars : List PriceBar) (t : ℕ) : Option String := (colorColumn bars).get? t

/-- Strict increase of a sequence, element to element. -/
def strictIncB : List ℚ → Bool
  | [] => true
  | [_] => true
  | x :: y :: xs => (decide (x < y)) && strictIncB (y :: xs)

/-! Supporting lemmas about the columns. -/

theorem isSome_get? (l : List α) (t : ℕ) (h : t < l.length) : (l.get? t).isSome := by
  rw [List.get?_eq_get h]; rfl

theorem get?_replicate (v : α) (n t : ℕ) (h : t < n) :
    (List.replicate n v).get? t = some v := by
  induction n generalizing t with
  | zero => omega
  | succ n ih =>
    cases t with
    | zero => rfl
    | succ t => simpa [List.replicate] using ih t (by omega)

theorem zipWith_self_replicate (f : α → α → β) (v : α) (n : ℕ) :
    List.zipWith f (List.replicate n v) (List.replicate n v) = List.replicate n (f v v) := by
  induction n with
  | zero => rfl
  | succ n ih => simp [List.replicate, ih]

theorem emaAux_replicate (a v : ℚ) (hv : a * v + (1 - a) * v = v) (n : ℕ) :
    emaAux a v (List.replicate n v) = List.replicate n v := by
  induction n with
  | zero => rfl
  | succ n ih => simp [List.replicate, emaAux, hv, ih]

theorem ema_replicate (span : ℕ) (v : ℚ) (n : ℕ) :
    ema span (List.replicate n v) = List.replicate n v := by
  cases n with
  | zero => rfl
  | succ n =>
    have hv : (2 / ((span : ℚ) + 1)) * v + (1 - 2 / ((span : ℚ) + 1)) * v = v := by ring
    simp [List.replicate, ema, emaAux_replicate _ _ hv]

theorem length_gains (bars : List PriceBar) : (gains bars).length = bars.length := by
  simp [gains, closes]

theorem length_losses (bars : List PriceBar) : (losses bars).length = bars.length := by
  simp [losses, closes]

theorem length_rollingMean (w : ℕ) (xs : List ℚ) : (rollingMean w xs).length = xs.length := by
  simp [rollingMean]

theorem length_emaColumn (span : ℕ) (bars : List PriceBar) :
    (emaColumn span bars).length = bars.length := by
  simp [emaColumn, closes]

theorem length_macdColumn (bars : List PriceBar) : (macdColumn bars).length = bars.length := by
  simp [macdColumn, length_emaColumn]

theorem length_signalLineColumn (bars : List PriceBar) :
    (signalLineColumn bars).length = bars.length := by
  simp [signalLineColumn, length_macdColumn]

theorem length_macdHistColumn (bars : List PriceBar) :
    (macdHistColumn bars).length = bars.length := by
  simp [macdHistColumn, length_macdColumn, length_signalLineColumn]

theorem length_rsiColumn (bars : List PriceBar) : (rsiColumn bars).length = bars.length := by
  simp [rsiColumn, length_rollingMean, length_gains, length_losses]

theorem get?_rollingMean (w : ℕ) (xs : List ℚ) (t : ℕ) (h : t < xs.length) :
    (rollingMean w xs).get? t =
      some (if t + 1 < w then none else some ((windowAt w t xs).sum / w)) := by
  unfold rollingMean
  rw [get?_idxMap, List.get?_eq_get h]
  simp

theorem avgGainAt_eq (bars : List PriceBar) (t : ℕ) (h : t < bars.length) :
    avgGainAt bars t =
      if t + 1 < 14 then none else some ((windowAt 14 t (gains bars)).sum / 14) := by
  unfold avgGainAt
  rw [List.getD_eq_getElem?_getD, ← List.get?_eq_getElem?,
    get?_rollingMean 14 _ t (by rw [length_gains]; exact h)]
  rfl

theorem avgLossAt_eq (bars : List PriceBar) (t : ℕ) (h : t < bars.length) :
    avgLossAt bars t =
      if t + 1 < 14 then none else some ((windowAt 14 t (losses bars)).sum / 14) := by
  unfold avgLossAt
  rw [List.getD_eq_getElem?_getD, ← List.get?_eq_getElem?,
    get?_rollingMean 14 _ t (by rw [length_losses]; exact h)]
  rfl

theorem rsiAt_eq (bars : List PriceBar) (t : ℕ) (h : t < bars.length) :
    rsiAt bars t = rsCombine (avgGainAt bars t) (avgLossAt bars t) := by
  unfold rsiAt rsiColumn avgGainAt avgLossAt
  rw [List.getD_eq_getElem?_getD, ← List.get?_eq_getElem?, List.get?_zipWith']
  rw [List.getD_eq_getElem?_getD, ← List.get?_eq_getElem?]
  rw [List.getD_eq_getElem?_getD, ← List.get?_eq_getElem?]
  rw [get?_rollingMean 14 _ t (by rw [length_gains]; exact h),
    get?_rollingMean 14 _ t (by rw [length_losses]; exact h)]
  rfl

theorem rsiAt_eq_none_of_le (bars : List PriceBar) (t : ℕ) (h : bars.length ≤ t) :
    rsiAt bars t = none := by
  unfold rsiAt
  rw [List.getD_eq_getElem?_getD, ← List.get?_eq_getElem?, List.get?_eq_none.2]
  · rfl
  · rw [length_rsiColumn]; exact h

theorem avgGainAt_eq_none_of_le (bars : List PriceBar) (t : ℕ) (h : bars.length ≤ t) :
    avgGainAt bars t = none := by
  unfold avgGainAt
  rw [List.getD_eq_getElem?_getD, ← List.get?_eq_getElem?, List.get?_eq_none.2]
  · rfl
  · rw [length_rollingMean, length_gains]; exact h

theorem windowAt_subset (w t : ℕ) (xs : List ℚ) : windowAt w t xs ⊆ xs := by
  intro x hx
  exact List.take_subset _ _ (List.drop_subset _ _ hx)

theorem gainOf_nonneg (d : Option ℚ) : 0 ≤ gainOf d := by
  cases d with
  | none => exact le_refl 0
  | some v =>
    simp only [gainOf]
    split_ifs with h
    · exact le_of_lt h
    · exact le_refl 0

theorem lossOf_nonneg (d : Option ℚ) : 0 ≤ lossOf d := by
  cases d with
  | none => exact le_refl 0
  | some v =>
    simp only [lossOf]
    split_ifs with h
    · linarith
    · exact le_refl 0

theorem gains_nonneg (bars : List PriceBar) : ∀ x ∈ gains bars, 0 ≤ x := by
  intro x hx
  rcases List.mem_map.1 hx with ⟨d, _, rfl⟩
  exact gainOf_nonneg d

theorem losses_nonneg (bars : List PriceBar) : ∀ x ∈ losses bars, 0 ≤ x := by
  intro x hx
  rcases List.mem_map.1 hx with ⟨d, _, rfl⟩
  exact lossOf_nonneg d

theorem diffAux_pos (xs : List ℚ) : ∀ (prev : ℚ), strictIncB (prev :: xs) = true →
    ∀ d ∈ diffAux prev xs, ∀ v, d = some v → 0 < v := by
  induction xs with
  | nil => intro prev _ d hd; simp [diffAux] at hd
  | cons x xs ih =>
    intro prev hmono d hd v hv
    simp only [strictIncB, Bool.and_eq_true, decide_eq_true_eq] at hmono
    rcases List.mem_cons.1 hd with h1 | h2
    · subst h1
      obtain rfl : x - prev = v := Option.some.inj hv
      linarith [hmono.1]
    · exact ih x hmono.2 d h2 v hv

theorem losses_all_zero (bars : List PriceBar) (hmono : strictIncB (closes bars) = true) :
    ∀ x ∈ losses bars, x = 0 := by
  intro x hx
  rcases List.mem_map.1 hx with ⟨d, hd, rfl⟩
  cases hcl : closes bars with
  | nil => rw [hcl] at hd; simp [diffO] at hd
  | cons c cs =>
    rw [hcl] at hd hmono
    simp only [diffO] at hd
    rcases List.mem_cons.1 hd with h1 | h2
    · rw [h1]; rfl
    · cases d with
      | none => rfl
      | some v =>
        have hv : 0 < v := diffAux_pos cs c hmono _ h2 v rfl
        simp only [lossOf]
        rw [if_neg (by linarith)]

theorem avgLossAt_zero_of_inc (bars : List PriceBar)
    (hmono : strictIncB (closes bars) = true) (t : ℕ) (h : t < bars.length)
    (h14 : ¬ t + 1 < 14) : avgLossAt bars t = some 0 := by
  rw [avgLossAt_eq bars t h, if_neg h14]
  have hz : (windowAt 14 t (losses bars)).sum = 0 :=
    List.sum_eq_zero (fun x hx => losses_all_zero bars hmono x (windowAt_subset _ _ _ hx))
  rw [hz]
  norm_num

/-- A strictly increasing test series: bar `i` has all prices `i + 1`,
volume 1000, date `i`. -/
def incBars (n : ℕ) : List PriceBar :=
  (List.range n).map (fun i => ⟨(i : ℤ), (i : ℚ) + 1, (i : ℚ) + 1, (i : ℚ) + 1, (i : ℚ) + 1, 1000⟩)

/-- C2 counterexample: with exactly 14 bars (strictly increasing closes),
`rsi` is already defined at the 14th row (index 13) with value 100, because
`delta.where(delta > 0, 0)` coerces the first row's undefined delta to 0 and
so the 14-wide rolling window is full one row earlier than the claim states. -/
theorem rsi_defined_with_14_bars :
    (incBars 14).length = 14 ∧ rsiAt (incBars 14) 13 = some 100 := by
  constructor
  · rfl
  · with_unfolding_all rfl

/-- C2 (amended): `rsi` is undefined for the first 13 rows; from index 13
onward (within the series), `rsi` is defined exactly when the trailing
average gain and average loss are not both zero. -/
theorem rsi_warmup_iff (bars : List PriceBar) (t : ℕ) (h : t < bars.length) :
    (rsiAt bars t).isSome ↔
      (13 ≤ t ∧ ¬(avgGainAt bars t = some 0 ∧ avgLossAt bars t = some 0)) := by
  rw [rsiAt_eq bars t h, avgGainAt_eq bars t h, avgLossAt_eq bars t h]
  by_cases h14 : t + 1 < 14
  · rw [if_pos h14, if_pos h14]
    simp only [rsCombine, Option.isSome_none]
    constructor
    · intro hc; exact absurd hc (by simp)
    · intro hc; omega
  · have ht : 13 ≤ t := by omega
    rw [if_neg h14, if_neg h14]
    simp only [rsCombine]
    by_cases hl : (windowAt 14 t (losses bars)).sum / 14 = 0
    · by_cases hg : (windowAt 14 t (gains bars)).sum / 14 = 0
      · rw [if_pos hl, if_pos hg]
        simp [ht, hl, hg]
      · rw [if_pos hl, if_neg hg]
        simp [ht, hg]
    · rw [if_neg hl]
      simp [ht, hl]

theorem rsi_warmup_iff_witness :
    ((rsiAt (incBars 15) 14).isSome ↔
      (13 ≤ 14 ∧ ¬(avgGainAt (incBars 15) 14 = some 0 ∧
        avgLossAt (incBars 15) 14 = some 0))) :=
  rsi_warmup_iff (incBars 15) 14 (by with_unfolding_all decide)

/-- C3: wherever the trailing average loss is zero and the trailing average
gain is positive, `rsi` is defined and equals exactly 100; in particular on
a strictly increasing close series, `rsi` equals 100 at every row where it
is defined. -/
theorem rsi_hundred_on_zero_loss :
    (∀ (bars : List PriceBar) (t : ℕ) (g : ℚ), avgGainAt bars t = some g →
        avgLossAt bars t = some 0 → 0 < g → rsiAt bars t = some 100) ∧
    (∀ bars : List PriceBar, strictIncB (closes bars) = true →
        ∀ (t : ℕ) (x : ℚ), rsiAt bars t = some x → x = 100) := by
  constructor
  · intro bars t g hG hL hg
    have hlen : t < bars.length := by
      by_contra hc
      push_neg at hc
      rw [avgGainAt_eq_none_of_le bars t hc] at hG
      exact Option.noConfusion hG
    rw [rsiAt_eq bars t hlen, hG, hL]
    simp [rsCombine, ne_of_gt hg]
  · intro bars hmono t x hx
    by_cases hlen : t < bars.length
    · rw [rsiAt_eq bars t hlen, avgGainAt_eq bars t hlen] at hx
      by_cases h14 : t + 1 < 14
      · rw [if_pos h14] at hx
        simp [rsCombine] at hx
      · rw [if_neg h14, avgLossAt_zero_of_inc bars hmono t hlen h14] at hx
        simp only [rsCombine, if_true, eq_self_iff_true] at hx
        by_cases hg : (windowAt 14 t (gains bars)).sum / 14 = 0
        · rw [if_pos hg] at hx
          exact Option.noConfusion hx
        · rw [if_neg hg] at hx
          exact (Option.some.inj hx).symm
    · push_neg at hlen
      rw [rsiAt_eq_none_of_le bars t hlen] at hx
      exact Option.noConfusion hx

theorem rsi_hundred_on_zero_loss_witness :
    rsiAt (incBars 15) 14 = some 100 ∧ (100 : ℚ) = 100 := by
  constructor
  · exact rsi_hundred_on_zero_loss.1 (incBars 15) 14 1
      (by with_unfolding_all rfl) (by with_unfolding_all rfl) (by norm_num)
  · exact rsi_hundred_on_zero_loss.2 (incBars 15) (by with_unfolding_all rfl) 14 100
      (by with_unfolding_all rfl)

/-- C7: wherever `rsi` is defined it lies in the closed interval [0, 100]. -/
theorem rsi_in_bounds (bars : List PriceBar) (t : ℕ) (x : ℚ)
    (h : rsiAt bars t = some x) : 0 ≤ x ∧ x ≤ 100 := by
  have hlen : t < bars.length := by
    by_contra hc
    push_neg at hc
    rw [rsiAt_eq_none_of_le bars t hc] at h
    exact Option.noConfusion h
  rw [rsiAt_eq bars t hlen, avgGainAt_eq bars t hlen, avgLossAt_eq bars t hlen] at h
  by_cases h14 : t + 1 < 14
  · rw [if_pos h14, if_pos h14] at h
    simp [rsCombine] at h
  · rw [if_neg h14, if_neg h14] at h
    set g := (windowAt 14 t (gains bars)).sum / 14 with hgdef
    set l := (windowAt 14 t (losses bars)).sum / 14 with hldef
    have hg0 : 0 ≤ g := by
      rw [hgdef]
      exact div_nonneg
        (List.sum_nonneg (fun y hy => gains_nonneg bars y (windowAt_subset _ _ _ hy)))
        (by norm_num)
    have hl0 : 0 ≤ l := by
      rw [hldef]
      exact div_nonneg
        (List.sum_nonneg (fun y hy => losses_nonneg bars y (windowAt_subset _ _ _ hy)))
        (by norm_num)
    simp only [rsCombine] at h
    by_cases hl : l = 0
    · rw [if_pos hl] at h
      by_cases hgz : g = 0
      · rw [if_pos hgz] at h
        exact Option.noConfusion h
      · rw [if_neg hgz] at h
        obtain rfl : (100 : ℚ) = x := Option.some.inj h
        norm_num
    · rw [if_neg hl] at h
      obtain rfl : 100 - 100 / (1 + g / l) = x := Option.some.inj h
      have hlpos : 0 < l := lt_of_le_of_ne hl0 (Ne.symm hl)
      have hq : 0 ≤ g / l := div_nonneg hg0 hlpos.le
      have hpos : (0 : ℚ) < 1 + g / l := by linarith
      have hle : 100 / (1 + g / l) ≤ 100 := by
        rw [div_le_iff₀ hpos]
        nlinarith
      have hgt : 0 < 100 / (1 + g / l) := by positivity
      constructor <;> linarith

theorem rsi_in_bounds_witness : 0 ≤ (100 : ℚ) ∧ (100 : ℚ) ≤ 100 :=
  rsi_in_bounds (incBars 15) 14 100 (by with_unfolding_all rfl)

theorem get?_diffAux (xs : List ℚ) : ∀ (prev : ℚ) (t : ℕ) (c p : ℚ),
    xs.get? t = some c → (prev :: xs).get? t = some p →
    (diffAux prev xs).get? t = some (some (c - p)) := by
  induction xs with
  | nil =>
    intro prev t c p hc _
    simp at hc
  | cons x xs ih =>
    intro prev t c p hc hp
    cases t with
    | zero =>
      obtain rfl : x = c := by simpa using hc
      obtain rfl : prev = p := by simpa using hp
      rfl
    | succ t =>
      simp only [diffAux, List.get?_cons_succ]
      exact ih x t c p (by simpa using hc) (by simpa using hp)

theorem get?_diffO_succ (xs : List ℚ) (t : ℕ) (c p : ℚ)
    (hc : xs.get? (t + 1) = some c) (hp : xs.get? t = some p) :
    (diffO xs).get? (t + 1) = some (some (c - p)) := by
  cases xs with
  | nil => simp at hc
  | cons x xs =>
    simp only [diffO, List.get?_cons_succ]
    exact get?_diffAux xs x t c p (by simpa using hc) hp

/-- C4 counterexample: the first row's colour is red (`"#ff0000"`, "down"),
not green (`"#00ff00"`, "up") as the claim's default would have it: the
first row's `NaN` delta compares false against `>= 0`. -/
theorem color_first_row_down :
    colorAt (incBars 1) 0 = some "#ff0000" ∧ colorAt (incBars 1) 0 ≠ some "#00ff00" := by
  have h : colorAt (incBars 1) 0 = some "#ff0000" := by with_unfolding_all rfl
  refine ⟨h, ?_⟩
  rw [h]
  simp

/-- C4 (amended): for every row with a predecessor, the colour hint is
green ("up") exactly when the day-over-day close change is nonnegative and
red ("down") otherwise; the first row defaults to red ("down"), because its
undefined delta compares false against `>= 0`. -/
theorem color_rule (bars : List PriceBar) :
    (0 < bars.length → colorAt bars 0 = some "#ff0000") ∧
    (∀ (t : ℕ) (c p : ℚ), closeAt bars (t + 1) = some c → closeAt bars t = some p →
      (colorAt bars (t + 1) = some "#00ff00" ↔ 0 ≤ c - p) ∧
      (colorAt bars (t + 1) = some "#ff0000" ↔ ¬ 0 ≤ c - p)) := by
  constructor
  · intro h
    cases bars with
    | nil => simp at h
    | cons b bs => rfl
  · intro t c p hc hp
    have hd : (diffO (closes bars)).get? (t + 1) = some (some (c - p)) :=
      get?_diffO_succ (closes bars) t c p hc hp
    have hcol : colorAt bars (t + 1) = some (colorOf (some (c - p))) := by
      unfold colorAt colorColumn
      rw [List.get?_map, hd]
      rfl
    rw [hcol]
    by_cases hcp : 0 ≤ c - p
    · have hgreen : colorOf (some (c - p)) = "#00ff00" := by simp [colorOf, hcp]
      rw [hgreen]
      exact ⟨iff_of_true rfl hcp, iff_of_false (by simp) (not_not_intro hcp)⟩
    · have hred : colorOf (some (c - p)) = "#ff0000" := by simp [colorOf, hcp]
      rw [hred]
      exact ⟨iff_of_false (by simp) hcp, iff_of_true rfl hcp⟩

theorem color_rule_witness :
    (colorAt (incBars 2) 0 = some "#ff0000") ∧
    ((colorAt (incBars 2) 1 = some "#00ff00" ↔ 0 ≤ (2 : ℚ) - 1) ∧
     (colorAt (incBars 2) 1 = some "#ff0000" ↔ ¬ 0 ≤ (2 : ℚ) - 1)) :=
  ⟨(color_rule (incBars 2)).1 (by with_unfolding_all decide),
   (color_rule (incBars 2)).2 0 2 1 (by with_unfolding_all rfl) (by with_unfolding_all rfl)⟩

theorem obGT_none_left (x : Option ℚ) : obGT none x = false := by
  cases x <;> rfl

theorem obGT_none_right (x : Option ℚ) : obGT x none = false := by
  cases x <;> rfl

/-- C6: on a single-bar input the pipeline runs without failure: it yields
exactly one row; the fields needing a previous row or a warm-up window
(`RSI`, `HighLevel`, `LowLevel`, `EMA233_Slope`) are undefined; the seeded
same-bar fields (the EMAs, `MACD`, `Signal_Line`, `MACD_Hist`) are defined;
and the signal is `None` (0). -/
theorem single_bar_pipeline (b : PriceBar) :
    (pipeline [b]).length = 1 ∧
    rsiAt [b] 0 = none ∧
    highLevelAt [b] 0 = none ∧
    lowLevelAt [b] 0 = none ∧
    ema233SlopeAt [b] 0 = none ∧
    ema5At [b] 0 = some b.Close ∧
    ema13At [b] 0 = some b.Close ∧
    ema55At [b] 0 = some b.Close ∧
    ema233At [b] 0 = some b.Close ∧
    ema12At [b] 0 = some b.Close ∧
    ema26At [b] 0 = some b.Close ∧
    macdAt [b] 0 = some 0 ∧
    signalLineAt [b] 0 = some 0 ∧
    macdHistAt [b] 0 = some 0 ∧
    signalAt (calculate_indicators [b]) 0 = 0 := by
  refine ⟨?_, rfl, rfl, rfl, rfl, rfl, rfl, rfl, rfl, rfl, rfl, ?_, ?_, ?_, ?_⟩
  · simp [pipeline, apply_strategy, calculate_indicators]
  · show some (b.Close - b.Close) = some 0
    rw [sub_self]
  · show some (b.Close - b.Close) = some 0
    rw [sub_self]
  · show some ((b.Close - b.Close) - (b.Close - b.Close)) = some 0
    rw [sub_self]
  · have hnone : prevRSI (calculate_indicators [b]) 0 = none := rfl
    simp only [signalAt, bullishAt, bearishAt, obLT, hnone, obGT_none_left,
      obGT_none_right, Bool.and_false]
    rcases hx : (calculate_indicators [b]).get? 0 with _ | r <;> simp [hx]

theorem closes_replicate (n : ℕ) (b : PriceBar) :
    closes (List.replicate n b) = List.replicate n b.Close := by
  simp [closes]

/-- C8: on a close series constant at `v`, each of the six close-EMA
columns equals `v` at every index (in particular from the second element
onward, with no overshoot); the span-9 EMA recurrence applied to the
constant series likewise stays at `v`; and the signal line, the span-9 EMA
of the constant-zero MACD column, stays at the MACD value 0. -/
theorem ema_constant_series (n : ℕ) (b : PriceBar) (t : ℕ) (h : t < n) :
    ema5At (List.replicate n b) t = some b.Close ∧
    ema13At (List.replicate n b) t = some b.Close ∧
    ema55At (List.replicate n b) t = some b.Close ∧
    ema233At (List.replicate n b) t = some b.Close ∧
    ema12At (List.replicate n b) t = some b.Close ∧
    ema26At (List.replicate n b) t = some b.Close ∧
    (ema 9 (List.replicate n b.Close)).get? t = some b.Close ∧
    macdAt (List.replicate n b) t = some 0 ∧
    signalLineAt (List.replicate n b) t = some 0 := by
  have hcol : ∀ s : ℕ, emaColumn s (List.replicate n b) = List.replicate n b.Close := by
    intro s
    rw [emaColumn, closes_replicate, ema_replicate]
  have hmacd : macdColumn (List.replicate n b) = List.replicate n 0 := by
    rw [macdColumn, hcol 12, hcol 26, zipWith_self_replicate, sub_self]
  have hsig : signalLineColumn (List.replicate n b) = List.replicate n 0 := by
    rw [signalLineColumn, hmacd, ema_replicate]
  refine ⟨?_, ?_, ?_, ?_, ?_, ?_, ?_, ?_, ?_⟩
  · rw [ema5At, hcol 5, get?_replicate _ _ _ h]
  · rw [ema13At, hcol 13, get?_replicate _ _ _ h]
  · rw [ema55At, hcol 55, get?_replicate _ _ _ h]
  · rw [ema233At, hcol 233, get?_replicate _ _ _ h]
  · rw [ema12At, hcol 12, get?_replicate _ _ _ h]
  · rw [ema26At, hcol 26, get?_replicate _ _ _ h]
  · rw [ema_replicate, get?_replicate _ _ _ h]
  · rw [macdAt, hmacd, get?_replicate _ _ _ h]
  · rw [signalLineAt, hsig, get?_replicate _ _ _ h]

theorem ema_constant_series_witness :
    ema5At (List.replicate 3 (⟨0, 5, 5, 5, 5, 1000⟩ : PriceBar)) 1 = some 5 ∧
    ema13At (List.replicate 3 (⟨0, 5, 5, 5, 5, 1000⟩ : PriceBar)) 1 = some 5 ∧
    ema55At (List.replicate 3 (⟨0, 5, 5, 5, 5, 1000⟩ : PriceBar)) 1 = some 5 ∧
    ema233At (List.replicate 3 (⟨0, 5, 5, 5, 5, 1000⟩ : PriceBar)) 1 = some 5 ∧
    ema12At (List.replicate 3 (⟨0, 5, 5, 5, 5, 1000⟩ : PriceBar)) 1 = some 5 ∧
    ema26At (List.replicate 3 (⟨0, 5, 5, 5, 5, 1000⟩ : PriceBar)) 1 = some 5 ∧
    (ema 9 (List.replicate 3 (5 : ℚ))).get? 1 = some 5 ∧
    macdAt (List.replicate 3 (⟨0, 5, 5, 5, 5, 1000⟩ : PriceBar)) 1 = some 0 ∧
    signalLineAt (List.replicate 3 (⟨0, 5, 5, 5, 5, 1000⟩ : PriceBar)) 1 = some 0 :=
  ema_constant_series 3 ⟨0, 5, 5, 5, 5, 1000⟩ 1 (by decide)

/-- C9: both stages preserve the sequence: `calculate_indicators` and the
composed pipeline return exactly one output row per input row, in order,
and each output row carries its original bar (date, open, high, low,
close, volume) unchanged. -/
theorem pipeline_preserves_bars (bars : List PriceBar) (t : ℕ) :
    ((calculate_indicators bars).get? t).map (·.bar) = bars.get? t ∧
    ((pipeline bars).get? t).map (fun r => r.row.bar) = bars.get? t ∧
    (calculate_indicators bars).length = bars.length ∧
    (pipeline bars).length = bars.length := by
  refine ⟨?_, ?_, ?_, ?_⟩
  · rw [calculate_indicators, get?_idxMap]
    cases bars.get? t <;> rfl
  · rw [pipeline, apply_strategy, get?_idxMap, calculate_indicators, get?_idxMap]
    cases bars.get? t <;> rfl
  · simp [calculate_indicators]
  · simp [pipeline, apply_strategy, calculate_indicators]

/-- C10: the EMA-family fields (`EMA5...EMA233`, `EMA12`, `EMA26`, `MACD`,
`Signal_Line`, `MACD_Hist`) are defined at every row of every non-empty
input, including the very first row: the seeded recurrence has no undefined
warm-up prefix. -/
theorem ema_fields_no_warmup (bars : List PriceBar) (t : ℕ) (h : t < bars.length) :
    (ema5At bars t).isSome ∧ (ema13At bars t).isSome ∧ (ema55At bars t).isSome ∧
    (ema233At bars t).isSome ∧ (ema12At bars t).isSome ∧ (ema26At bars t).isSome ∧
    (macdAt bars t).isSome ∧ (signalLineAt bars t).isSome ∧ (macdHistAt bars t).isSome := by
  refine ⟨?_, ?_, ?_, ?_, ?_, ?_, ?_, ?_, ?_⟩
  · exact isSome_get? _ t (by rw [length_emaColumn]; exact h)
  · exact isSome_get? _ t (by rw [length_emaColumn]; exact h)
  · exact isSome_get? _ t (by rw [length_emaColumn]; exact h)
  · exact isSome_get? _ t (by rw [length_emaColumn]; exact h)
  · exact isSome_get? _ t (by rw [length_emaColumn]; exact h)
  · exact isSome_get? _ t (by rw [length_emaColumn]; exact h)
  · exact isSome_get? _ t (by rw [length_macdColumn]; exact h)
  · exact isSome_get? _ t (by rw [length_signalLineColumn]; exact h)
  · exact isSome_get? _ t (by rw [length_macdHistColumn]; exact h)

theorem ema_fields_no_warmup_witness :
    (ema5At (incBars 1) 0).isSome ∧ (ema13At (incBars 1) 0).isSome ∧
    (ema55At (incBars 1) 0).isSome ∧ (ema233At (incBars 1) 0).isSome ∧
    (ema12At (incBars 1) 0).isSome ∧ (ema26At (incBars 1) 0).isSome ∧
    (macdAt (incBars 1) 0).isSome ∧ (signalLineAt (incBars 1) 0).isSome ∧
    (macdHistAt (incBars 1) 0).isSome :=
  ema_fields_no_warmup (incBars 1) 0 (by with_unfolding_all decide)

/-- C1: at a row with a predecessor where every referenced operand is
defined (the EMAs are always defined; `EMA233_Slope`, `HighLevel`,
`LowLevel`, this row's `RSI` and the previous row's `RSI` are given as
defined), the signal is Buy (1) iff all seven bullish conditions hold,
Sell (-1) iff all seven bearish conditions hold, and None (0) iff neither
set holds. -/
theorem signal_rule (rows : List IndicatorRow) (t : ℕ) (r p : IndicatorRow)
    (hr : rows.get? (t + 1) = some r) (hp : rows.get? t = some p)
    (e5 e13 m s sl ll hl rt rp : ℚ)
    (hE5 : r.EMA5 = some e5) (hE13 : r.EMA13 = some e13) (hM : r.MACD = some m)
    (hS : r.Signal_Line = some s) (hSl : r.EMA233_Slope = some sl)
    (hLL : r.LowLevel = some ll) (hHL : r.HighLevel = some hl)
    (hRt : r.RSI = some rt) (hRp : p.RSI = some rp) :
    (signalAt rows (t + 1) = 1 ↔
      (e13 < e5 ∧ m < 0 ∧ s < 0 ∧ s < m ∧ 0 < sl ∧ ll < r.bar.Close ∧ rp < rt)) ∧
    (signalAt rows (t + 1) = -1 ↔
      (e5 < e13 ∧ 0 < m ∧ 0 < s ∧ m < s ∧ sl < 0 ∧ r.bar.Close < hl ∧ rt < rp)) ∧
    (signalAt rows (t + 1) = 0 ↔
      (¬ (e13 < e5 ∧ m < 0 ∧ s < 0 ∧ s < m ∧ 0 < sl ∧ ll < r.bar.Close ∧ rp < rt) ∧
       ¬ (e5 < e13 ∧ 0 < m ∧ 0 < s ∧ m < s ∧ sl < 0 ∧ r.bar.Close < hl ∧ rt < rp))) := by
  have hrg : rows[t + 1]? = some r := by
    rw [← List.get?_eq_getElem?]
    exact hr
  have hpg : rows[t]? = some p := by
    rw [← List.get?_eq_getElem?]
    exact hp
  have hprev : prevRSI rows (t + 1) = some rp := by
    simp [prevRSI, hpg, hRp]
  have hbit : bullishAt rows (t + 1) = true ↔
      (e13 < e5 ∧ m < 0 ∧ s < 0 ∧ s < m ∧ 0 < sl ∧ ll < r.bar.Close ∧ rp < rt) := by
    simp [bullishAt, hrg, hprev, hE5, hE13, hM, hS, hSl, hLL, hRt, obGT, obLT, and_assoc]
  have hbeit : bearishAt rows (t + 1) = true ↔
      (e5 < e13 ∧ 0 < m ∧ 0 < s ∧ m < s ∧ sl < 0 ∧ r.bar.Close < hl ∧ rt < rp) := by
    simp [bearishAt, hrg, hprev, hE5, hE13, hM, hS, hSl, hHL, hRt, obGT, obLT, and_assoc]
  by_cases hbe : bearishAt rows (t + 1) = true
  · have hBear := hbeit.1 hbe
    have hnBull : ¬ (e13 < e5 ∧ m < 0 ∧ s < 0 ∧ s < m ∧ 0 < sl ∧ ll < r.bar.Close ∧ rp < rt) :=
      fun hBull => absurd hBear.1 (lt_asymm hBull.1)
    rw [signalAt, if_pos hbe]
    exact ⟨iff_of_false (by norm_num) hnBull, iff_of_true rfl hBear,
      iff_of_false (by norm_num) (fun hc => hc.2 hBear)⟩
  · by_cases hbu : bullishAt rows (t + 1) = true
    · have hBull := hbit.1 hbu
      have hnBear : ¬ (e5 < e13 ∧ 0 < m ∧ 0 < s ∧ m < s ∧ sl < 0 ∧ r.bar.Close < hl ∧ rt < rp) :=
        fun hB => hbe (hbeit.2 hB)
      rw [signalAt, if_neg hbe, if_pos hbu]
      exact ⟨iff_of_true rfl hBull, iff_of_false (by norm_num) hnBear,
        iff_of_false (by norm_num) (fun hc => hc.1 hBull)⟩
    · have hnBull : ¬ (e13 < e5 ∧ m < 0 ∧ s < 0 ∧ s < m ∧ 0 < sl ∧ ll < r.bar.Close ∧ rp < rt) :=
        fun h => hbu (hbit.2 h)
      have hnBear : ¬ (e5 < e13 ∧ 0 < m ∧ 0 < s ∧ m < s ∧ sl < 0 ∧ r.bar.Close < hl ∧ rt < rp) :=
        fun h => hbe (hbeit.2 h)
      rw [signalAt, if_neg hbe, if_neg hbu]
      exact ⟨iff_of_false (by norm_num) hnBull, iff_of_false (by norm_num) hnBear,
        iff_of_true rfl ⟨hnBull, hnBear⟩⟩

/-- A previous row for the classifier witness: only its RSI matters. -/
def demoPrevRow : IndicatorRow :=
  { bar := ⟨0, 5, 6, 4, 5, 1000⟩
    EMA5 := some 5, EMA13 := some 5, EMA55 := some 5, EMA233 := some 5
    EMA12 := some 5, EMA26 := some 5, MACD := some 0, Signal_Line := some 0
    MACD_Hist := some 0, RSI := some 40, HighLevel := some 6, LowLevel := some 4
    EMA233_Slope := some 0, Color := some "#00ff00" }

/-- A current row for the classifier witness, with every bullish operand set. -/
def demoBullRow : IndicatorRow :=
  { bar := ⟨1, 5, 6, 4, 5, 1000⟩
    EMA5 := some 2, EMA13 := some 1, EMA55 := some 5, EMA233 := some 5
    EMA12 := some 5, EMA26 := some 5, MACD := some (-1), Signal_Line := some (-2)
    MACD_Hist := some 1, RSI := some 50, HighLevel := some 100, LowLevel := some 0
    EMA233_Slope := some 1, Color := some "#00ff00" }

theorem signal_rule_witness :
    (signalAt [demoPrevRow, demoBullRow] 1 = 1 ↔
      ((1 : ℚ) < 2 ∧ (-1 : ℚ) < 0 ∧ (-2 : ℚ) < 0 ∧ (-2 : ℚ) < -1 ∧ (0 : ℚ) < 1 ∧
        (0 : ℚ) < demoBullRow.bar.Close ∧ (40 : ℚ) < 50)) ∧
    (signalAt [demoPrevRow, demoBullRow] 1 = -1 ↔
      ((2 : ℚ) < 1 ∧ (0 : ℚ) < -1 ∧ (0 : ℚ) < -2 ∧ (-1 : ℚ) < -2 ∧ (1 : ℚ) < 0 ∧
        demoBullRow.bar.Close < 100 ∧ (50 : ℚ) < 40)) ∧
    (signalAt [demoPrevRow, demoBullRow] 1 = 0 ↔
      (¬ ((1 : ℚ) < 2 ∧ (-1 : ℚ) < 0 ∧ (-2 : ℚ) < 0 ∧ (-2 : ℚ) < -1 ∧ (0 : ℚ) < 1 ∧
          (0 : ℚ) < demoBullRow.bar.Close ∧ (40 : ℚ) < 50) ∧
       ¬ ((2 : ℚ) < 1 ∧ (0 : ℚ) < -1 ∧ (0 : ℚ) < -2 ∧ (-1 : ℚ) < -2 ∧ (1 : ℚ) < 0 ∧
          demoBullRow.bar.Close < 100 ∧ (50 : ℚ) < 40))) :=
  signal_rule [demoPrevRow, demoBullRow] 0 demoBullRow demoPrevRow rfl rfl
    2 1 (-1) (-2) 1 0 100 50 40 rfl rfl rfl rfl rfl rfl rfl rfl rfl

/-- Two bars that are invalid on every count of C5: `Low > High`, a
duplicate (non-strictly-ascending) date, and negative volume. -/
def badBars : List PriceBar := [⟨7, 1, 1, 2, 1, -3⟩, ⟨7, 1, 1, 2, 1, -3⟩]

/-- C5 counterexample: the module performs no ingestion validation.  On an
input whose bars violate `low ≤ high`, whose dates repeat, and whose volume
is negative, the pipeline still computes indicators and a signal for every
row instead of rejecting the input. -/
theorem invalid_input_still_classified :
    (badBars.map (·.Low) = [2, 2]) ∧ (badBars.map (·.High) = [1, 1]) ∧ (1 : ℚ) < 2 ∧
    (badBars.map (·.Date) = [7, 7]) ∧ (badBars.map (·.Volume) = [-3, -3]) ∧
    (pipeline badBars).length = 2 ∧
    ((pipeline badBars).get? 0).map (fun r => r.Signal) = some 0 ∧
    ((pipeline badBars).get? 1).map (fun r => r.Signal) = some 0 := by
  refine ⟨rfl, rfl, by norm_num, rfl, rfl, rfl, ?_, ?_⟩
  · with_unfolding_all rfl
  · with_unfolding_all rfl

/-- C5 (amended): the pipeline rejects nothing: for every input, including
ones with invalid bars or non-monotonic dates, both stages run and produce
exactly one classified row per input row. -/
theorem pipeline_never_rejects (bars : List PriceBar) :
    (pipeline bars).length = bars.length := by
  simp [pipeline, apply_strategy, calculate_indicators]

end StockApp
